import Mathlib

/-!
# Verification of the `ctapipe_io_lst` container schema module

A shallow embedding of `src/ctapipe_io_lst/containers.py`.  That module
declares seven container classes (`LSTDriveContainer`, `LSTServiceContainer`,
`LSTEventContainer`, `LSTMonitoringContainer`, `LSTCameraContainer`,
`LSTContainer`, `LSTDataContainer`), each a list of field declarations with a
default value, a human-readable description and optionally a physical unit.

The host framework (`ctapipe.core.Container` / `Field` / `Map`) is an external
collaborator whose code is not part of this repository.  Its behaviour is
modelled from the spec: instantiating a container with no arguments yields a
record whose every field holds the declared default (each instance owning its
own copies, ownership strictly tree-shaped, no sharing); attribute assignment
stores the value unchanged; a `Map` is a keyed mapping that produces a
freshly-defaulted sub-container for a missing key.

Python objects store their attributes in an insertion-ordered dictionary, so
an instance is embedded as an association list from attribute names to values
(`Obj` below).
-/

namespace LSTContainers

/-- Physical units appearing in the module: only `u.rad` is used. -/
inductive PhysUnit where
  | rad
  deriving DecidableEq, Repr

/-- Floating point default magnitudes appearing in the module: only `nan`
appears as a float default; every other numeric default is an integer. -/
inductive FloatLit where
  | nan
  deriving DecidableEq, Repr

mutual

/-- Runtime values a container field can hold.  Defaults in the module are
integers, strings, `None`, `nan * u.rad` quantities, lists, nested container
instances (`LSTDriveContainer()`, …), an instance of the external framework's
`MonitoringContainer` (whose own fields are outside this repository, kept
opaque), and the empty `Map`. -/
inductive Value where
  | int (n : Int)
  | str (s : String)
  | none
  | quant (m : FloatLit) (u : PhysUnit)
  | list (vs : ValueList)
  | inst (fields : Obj)
  | extInst (cls : String)
  | map (entries : EntryList)
  deriving DecidableEq

/-- A Python list of values. -/
inductive ValueList where
  | nil
  | cons (v : Value) (t : ValueList)
  deriving DecidableEq

/-- A container instance: the insertion-ordered attribute dictionary of the
Python object. -/
inductive Obj where
  | nil
  | cons (name : String) (v : Value) (t : Obj)
  deriving DecidableEq

/-- The integer-keyed entries of a `Map`. -/
inductive EntryList where
  | nil
  | cons (k : Int) (v : Value) (t : EntryList)
  deriving DecidableEq

end

/-- One field declaration: `Field(default, description, unit=...)` in the
source, together with the attribute name it is bound to. -/
structure FieldDecl where
  name : String
  default : Value
  description : String
  unit : Option PhysUnit
  deriving DecidableEq

/-- A container class declaration is its ordered list of field declarations. -/
abbrev ContainerDecl := List FieldDecl

/-- `Field(default, description)` with no unit. -/
def fld (name : String) (default : Value) (description : String) : FieldDecl :=
  ⟨name, default, description, Option.none⟩

/-- `Field(default, description, unit=u)`. -/
def fldU (name : String) (default : Value) (description : String)
    (u : PhysUnit) : FieldDecl :=
  ⟨name, default, description, some u⟩

/-- Modelled from the spec: `Container.__init__` with no arguments sets every
declared field to its declared default value (each instance receiving its own
copy; in this value semantics a copy is the value itself; sharing between
instances is studied separately with the heap model below). -/
def instantiate : ContainerDecl → Obj
  | [] => .nil
  | fd :: t => .cons fd.name fd.default (instantiate t)

/-- Attribute read (`getattr`): the value bound to `k`, if any. -/
def getF : Obj → String → Option Value
  | .nil, _ => Option.none
  | .cons k' v t, k => if k' = k then some v else getF t k

/-- Attribute write (`setattr`): rebind `k`, inserting it if absent.  No
transformation is applied to the stored value. -/
def setF : Obj → String → Value → Obj
  | .nil, k, v => .cons k v .nil
  | .cons k' v' t, k, v =>
      if k' = k then .cons k v t else .cons k' v' (setF t k v)

/-- The declaration of field `n` in container declaration `fs`. -/
def getDecl (fs : ContainerDecl) (n : String) : Option FieldDecl :=
  fs.find? fun fd => fd.name == n

/-! ## The container classes declared in `containers.py` -/

/-- Drive report container. -/
def LSTDriveContainer : ContainerDecl := [
  fld "date" (.str " ") "observation date",
  fld "time_stamp" (.int (-1)) "timestamp",
  fld "epoch" (.int (-1)) "Epoch",
  fld "time" (.int (-1)) "time",
  fldU "azimuth_avg" (.quant .nan .rad) "Azimuth" .rad,
  fldU "azimuth_min" (.quant .nan .rad) "Azimuth min" .rad,
  fldU "azimuth_max" (.quant .nan .rad) "Azimuth max" .rad,
  fldU "azimuth_rmse" (.quant .nan .rad) "Azimuth root-mean-square error" .rad,
  fldU "altitude_avg" (.quant .nan .rad) "Altitude" .rad,
  fldU "altitude_min" (.quant .nan .rad) "Altitude min" .rad,
  fldU "altitude_max" (.quant .nan .rad) "Altitude max" .rad,
  fldU "altitude_rmse" (.quant .nan .rad) "Altitude root-mean-square error" .rad]

/-- Container for Fields that are specific to each LST camera configuration.
`0o0` in the source is the octal literal for the integer `0`. -/
def LSTServiceContainer : ContainerDecl := [
  fld "telescope_id" (.int (-1)) "telescope id",
  fld "cs_serial" .none "serial number of the camera server",
  fld "configuration_id" .none "id of the CameraConfiguration",
  fld "date" .none "NTP start of run date",
  fld "num_pixels" (.int (-1)) "number of pixels",
  fld "num_samples" (.int (-1)) "num samples",
  fld "pixel_ids" (.list .nil) "id of the pixels in the waveform array",
  fld "data_model_version" .none "data model version",
  fld "idaq_version" (.int 0) "idaq version",
  fld "cdhs_version" (.int 0) "cdhs version",
  fld "algorithms" .none "algorithms",
  fld "pre_proc_algorithms" .none "pre processing algorithms",
  fld "module_ids" (.list .nil) "module ids",
  fld "num_modules" (.int (-1)) "number of modules"]

/-- Container for Fields that are specific to each LST event. -/
def LSTEventContainer : ContainerDecl := [
  fld "configuration_id" .none "id of the CameraConfiguration",
  fld "event_id" .none "local id of the event",
  fld "tel_event_id" .none "global id of the event",
  fld "pixel_status" (.list .nil) "status of the pixels (n_pixels)",
  fld "ped_id" .none "tel_event_id of the event used for pedestal substraction",
  fld "module_status" (.list .nil) "status of the modules (n_modules)",
  fld "extdevices_presence" .none "presence of data for external devices",
  fld "tib_event_counter" .none "TIB event counter",
  fld "tib_pps_counter" .none "TIB pps counter",
  fld "tib_tenMHz_counter" .none "TIB 10 MHz counter",
  fld "tib_stereo_pattern" .none "TIB stereo pattern",
  fld "tib_masked_trigger" .none "TIB trigger mask",
  fld "ucts_event_counter" .none "UCTS event counter",
  fld "ucts_pps_counter" .none "UCTS pps counter",
  fld "ucts_clock_counter" .none "UCTS clock counter",
  fld "ucts_timestamp" .none "UCTS timestamp",
  fld "ucts_camera_timestamp" .none "UCTS camera timestamp",
  fld "ucts_trigger_type" .none "UCTS trigger type",
  fld "ucts_white_rabbit_status" .none "UCTS whiteRabbit status",
  fld "swat_timestamp" .none "SWAT timestamp",
  fld "swat_counter1" .none "SWAT event counter 1",
  fld "swat_counter2" .none "SWAT event counter 2",
  fld "swat_event_type" .none "SWAT event type",
  fld "swat_camera_flag" .none "SWAT camera flag ",
  fld "swat_camera_event_num" .none "SWAT camera event number",
  fld "swat_array_flag" .none "SWAT array negative flag",
  fld "swat_array_event_num" .none "SWAT array event number",
  fld "pps_counter" (.list .nil) "Dragon pulse per second counter (n_modules)",
  fld "tenMHz_counter" (.list .nil) "Dragon 10 MHz counter (n_modules)",
  fld "event_counter" (.list .nil) "Dragon event counter (n_modules)",
  fld "trigger_counter" (.list .nil) "Dragon trigger counter (n_modules)",
  fld "local_clock_counter" (.list .nil) "Dragon local 133 MHz counter (n_modules)",
  fld "chips_flags" (.list .nil) "chips flags",
  fld "first_capacitor_id" (.list .nil) "first capacitor id",
  fld "drs_tag_status" (.list .nil) "DRS tag status",
  fld "drs_tag" (.list .nil) "DRS tag"]

/-- Container for Fields/containers that are specific for the LST monitoring,
e.g. the pointing data.  The default of `drive` is `LSTDriveContainer()`, a
freshly-defaulted drive report. -/
def LSTMonitoringContainer : ContainerDecl := [
  fld "drive" (.inst (instantiate LSTDriveContainer))
    "container for LST drive reports"]

/-- Container for Fields that are specific to each LST camera: its defaults
are `LSTEventContainer()`, `LSTServiceContainer()` and
`LSTMonitoringContainer()`, each freshly defaulted. -/
def LSTCameraContainer : ContainerDecl := [
  fld "evt" (.inst (instantiate LSTEventContainer))
    "LST specific event Information",
  fld "svc" (.inst (instantiate LSTServiceContainer))
    "LST specific camera_config Information",
  fld "mon" (.inst (instantiate LSTMonitoringContainer))
    "LST specific monitoring Information"]

/-- Storage for the LSTCameraContainer for each telescope.  The default of
`tel` is `Map(LSTCameraContainer)`: an initially empty integer-keyed mapping
whose default factory is `LSTCameraContainer`. -/
def LSTContainer : ContainerDecl := [
  fld "tels_with_data" (.list .nil) "list of telescopes with data",
  fld "tel" (.map .nil) "map of tel_id to LSTTelContainer"]

/-- Data container including LST and monitoring information.  Only the two
fields declared in this module are embedded; the fields inherited from the
external `DataContainer` base class live outside this repository, as does the
`MonitoringContainer` class whose fresh instance is the default of `mon`. -/
def LSTDataContainer : ContainerDecl := [
  fld "lst" (.inst (instantiate LSTContainer)) "LST specific Information",
  fld "mon" (.extInst "MonitoringContainer")
    "container for LST monitoring data (MON)"]

/-- The container classes declared in the module, with their names. -/
def containerDefs : List (String × ContainerDecl) := [
  ("LSTDriveContainer", LSTDriveContainer),
  ("LSTServiceContainer", LSTServiceContainer),
  ("LSTEventContainer", LSTEventContainer),
  ("LSTMonitoringContainer", LSTMonitoringContainer),
  ("LSTCameraContainer", LSTCameraContainer),
  ("LSTContainer", LSTContainer),
  ("LSTDataContainer", LSTDataContainer)]

/-! ## Map operations and the `tels_with_data` / `tel` correspondence -/

/-- Entry lookup in a `Map` by integer key. -/
def lookupE : EntryList → Int → Option Value
  | .nil, _ => Option.none
  | .cons k' v t, k => if k' = k then some v else lookupE t k

/-- Key membership in a `Map`. -/
def containsE : EntryList → Int → Bool
  | .nil, _ => false
  | .cons k' _ t, k => k' == k || containsE t k

/-- Entry insertion (`m[k] = v`): rebind `k`, appending it if absent. -/
def insertE : EntryList → Int → Value → EntryList
  | .nil, k, v => .cons k v .nil
  | .cons k' v' t, k, v =>
      if k' = k then .cons k v t else .cons k' v' (insertE t k v)

/-- Modelled from the spec: reading key `k` of an `LSTContainer` instance's
`tel` mapping.  The module's only `Map` has default factory
`LSTCameraContainer`, so a key not yet inserted yields a freshly-defaulted
`LSTCameraContainer` instead of an error (the mapping also stores that fresh
instance; the value read back is the same either way).  `Option.none` is
returned only when the `tel` attribute no longer holds a `Map` at all. -/
def telGet (s : Obj) (k : Int) : Option Value :=
  match getF s "tel" with
  | some (Value.map es) =>
      match lookupE es k with
      | some v => some v
      | Option.none => some (Value.inst (instantiate LSTCameraContainer))
  | _ => Option.none

/-- The current `tels_with_data` list of an `LSTContainer` instance (empty
when the attribute does not hold a list). -/
def telsListed (s : Obj) : ValueList :=
  match getF s "tels_with_data" with
  | some (Value.list vs) => vs
  | _ => ValueList.nil

/-- The entries inserted so far into the `tel` mapping of an `LSTContainer`
instance (empty when the attribute does not hold a `Map`). -/
def telEntries (s : Obj) : EntryList :=
  match getF s "tel" with
  | some (Value.map es) => es
  | _ => EntryList.nil

/-- Every integer telescope id in `vs` has an inserted entry in `es`. -/
def telsWithDataOK : ValueList → EntryList → Bool
  | .nil, _ => true
  | .cons (Value.int j) t, es => containsE es j && telsWithDataOK t es
  | .cons _ t, es => telsWithDataOK t es

/-- The spec's correspondence invariant for an `LSTContainer` instance:
every telescope id present in `tels_with_data` has an entry in `tel`. -/
def telInv (s : Obj) : Bool :=
  telsWithDataOK (telsListed s) (telEntries s)

/-- Insertion into the `tel` mapping of an `LSTContainer` instance
(a no-op when the `tel` attribute no longer holds a `Map`). -/
def telInsert (s : Obj) (k : Int) (v : Value) : Obj :=
  match getF s "tel" with
  | some (Value.map es) => setF s "tel" (Value.map (insertE es k v))
  | _ => s

/-- One externally performed mutation of an `LSTContainer` instance: an
arbitrary attribute assignment, or an insertion into the `tel` mapping. -/
inductive LSTStep : Obj → Obj → Prop where
  | assign (s : Obj) (name : String) (v : Value) : LSTStep s (setF s name v)
  | insertTel (s : Obj) (k : Int) (v : Value) : LSTStep s (telInsert s k v)

/-- The `LSTContainer` states reachable from a fresh instance by any sequence
of field assignments and map insertions. -/
def Reachable (s : Obj) : Prop :=
  Relation.ReflTransGen LSTStep (instantiate LSTContainer) s

/-! ## Basic get/set lemmas -/

theorem getF_setF : (l : Obj) → (k : String) → (v : Value) →
    getF (setF l k v) k = some v
  | .nil, k, v => by simp [setF, getF]
  | .cons k' v' t, k, v => by
      by_cases h : k' = k
      · simp [setF, getF, h]
      · simp only [setF, getF, if_neg h]
        exact getF_setF t k v

theorem getF_setF_ne : (l : Obj) → (k j : String) → (v : Value) → k ≠ j →
    getF (setF l k v) j = getF l j
  | .nil, k, j, v, h => by simp [setF, getF, h]
  | .cons k' v' t, k, j, v, h => by
      by_cases hk : k' = k
      · subst hk
        simp [setF, getF, h]
      · simp only [setF, if_neg hk, getF]
        by_cases hj : k' = j
        · simp [hj]
        · simp only [if_neg hj]
          exact getF_setF_ne t k j v h

theorem containsE_insertE : (es : EntryList) → (j k : Int) → (v : Value) →
    containsE es j = true → containsE (insertE es k v) j = true
  | .nil, j, k, v, h => by simp [containsE] at h
  | .cons k' v' t, j, k, v, h => by
      by_cases hk : k' = k
      · subst hk
        simp only [containsE, Bool.or_eq_true, beq_iff_eq] at h
        simp only [insertE, if_pos rfl, containsE, Bool.or_eq_true, beq_iff_eq]
        cases h with
        | inl h => exact Or.inl h
        | inr h => exact Or.inr h
      · simp only [containsE, Bool.or_eq_true, beq_iff_eq] at h
        simp only [insertE, if_neg hk, containsE, Bool.or_eq_true, beq_iff_eq]
        cases h with
        | inl h => exact Or.inl h
        | inr h => exact Or.inr (containsE_insertE t j k v h)

theorem telsWithDataOK_insertE : (vs : ValueList) → (es : EntryList) →
    (k : Int) → (v : Value) → telsWithDataOK vs es = true →
    telsWithDataOK vs (insertE es k v) = true
  | .nil, _, _, _, _ => rfl
  | .cons (Value.int j) t, es, k, v, h => by
      simp only [telsWithDataOK, Bool.and_eq_true] at h ⊢
      exact ⟨containsE_insertE es j k v h.1, telsWithDataOK_insertE t es k v h.2⟩
  | .cons (Value.str _) t, es, k, v, h => telsWithDataOK_insertE t es k v h
  | .cons Value.none t, es, k, v, h => telsWithDataOK_insertE t es k v h
  | .cons (Value.quant _ _) t, es, k, v, h => telsWithDataOK_insertE t es k v h
  | .cons (Value.list _) t, es, k, v, h => telsWithDataOK_insertE t es k v h
  | .cons (Value.inst _) t, es, k, v, h => telsWithDataOK_insertE t es k v h
  | .cons (Value.extInst _) t, es, k, v, h => telsWithDataOK_insertE t es k v h
  | .cons (Value.map _) t, es, k, v, h => telsWithDataOK_insertE t es k v h

/-- Inserting into the `tel` mapping preserves the correspondence invariant:
it leaves `tels_with_data` unchanged and only adds keys to `tel`. -/
theorem telInv_telInsert (s : Obj) (k : Int) (v : Value)
    (h : telInv s = true) : telInv (telInsert s k v) = true := by
  cases hg : getF s "tel" with
  | none =>
      have : telInsert s k v = s := by unfold telInsert; rw [hg]
      rwa [this]
  | some w =>
      cases w with
      | map es =>
          have hins : telInsert s k v = setF s "tel" (Value.map (insertE es k v)) := by
            unfold telInsert; rw [hg]
          have hlist : telsListed (setF s "tel" (Value.map (insertE es k v)))
              = telsListed s := by
            unfold telsListed
            rw [getF_setF_ne s "tel" "tels_with_data" _ (by decide)]
          have hent : telEntries (setF s "tel" (Value.map (insertE es k v)))
              = insertE es k v := by
            unfold telEntries
            rw [getF_setF s "tel" (Value.map (insertE es k v))]
          have hes : telEntries s = es := by unfold telEntries; rw [hg]
          unfold telInv at h ⊢
          rw [hins, hlist, hent]
          rw [hes] at h
          exact telsWithDataOK_insertE _ _ _ _ h
      | int n =>
          have : telInsert s k v = s := by unfold telInsert; rw [hg]
          rwa [this]
      | str a =>
          have : telInsert s k v = s := by unfold telInsert; rw [hg]
          rwa [this]
      | none =>
          have : telInsert s k v = s := by unfold telInsert; rw [hg]
          rwa [this]
      | quant a b =>
          have : telInsert s k v = s := by unfold telInsert; rw [hg]
          rwa [this]
      | list a =>
          have : telInsert s k v = s := by unfold telInsert; rw [hg]
          rwa [this]
      | inst a =>
          have : telInsert s k v = s := by unfold telInsert; rw [hg]
          rwa [this]
      | extInst a =>
          have : telInsert s k v = s := by unfold telInsert; rw [hg]
          rwa [this]

/-! ## Heap model: tree-shaped ownership, no sharing between instances

Python objects and lists live on a heap and are passed by reference, so
whether two instances share a mutable sub-record is a question about
addresses.  Mutable values (lists, container instances, maps, external
instances) are placed in their own heap cells; scalars are stored inline. -/

/-- A scalar attribute value, or a reference to a heap cell. -/
inductive HVal where
  | int (n : Int)
  | str (s : String)
  | none
  | quant (m : FloatLit) (u : PhysUnit)
  | ref (a : Nat)
  deriving DecidableEq, Repr

/-- A heap cell: a Python list, the attribute dictionary of a container
instance, the entries of a `Map`, or an opaque instance of an external
class. -/
inductive Cell where
  | listC (vs : List HVal)
  | objC (fields : List (String × HVal))
  | mapC (entries : List (Int × HVal))
  | extC (cls : String)
  deriving DecidableEq, Repr

/-- The heap: an association of addresses to cells. -/
abbrev Heap := List (Nat × Cell)

/-- The cell stored at address `a`. -/
def hGet : Heap → Nat → Option Cell
  | [], _ => Option.none
  | (a', c) :: t, a => if a' = a then some c else hGet t a

/-- Every allocated address of the heap lies below `c` (the allocator's
well-formedness invariant: `c` is the next free address). -/
def heapBelow (h : Heap) (c : Nat) : Bool :=
  h.all fun q => decide (q.1 < c)

mutual

/-- Modelled from the spec: instantiation gives each new instance its own
copies of its defaults (ownership strictly tree-shaped, no sharing), so
copying a default value into the heap allocates a fresh cell for every
mutable part.  Returns the inline value, the next free address and the
extended heap. -/
def allocVal : Value → Nat → Heap → HVal × Nat × Heap
  | Value.int n, c, h => (HVal.int n, c, h)
  | Value.str s, c, h => (HVal.str s, c, h)
  | Value.none, c, h => (HVal.none, c, h)
  | Value.quant m u, c, h => (HVal.quant m u, c, h)
  | Value.list vs, c, h =>
      let r := allocList vs c h
      (HVal.ref r.2.1, r.2.1 + 1, (r.2.1, Cell.listC r.1) :: r.2.2)
  | Value.inst fs, c, h =>
      let r := allocObj fs c h
      (HVal.ref r.2.1, r.2.1 + 1, (r.2.1, Cell.objC r.1) :: r.2.2)
  | Value.extInst cls, c, h => (HVal.ref c, c + 1, (c, Cell.extC cls) :: h)
  | Value.map es, c, h =>
      let r := allocEntries es c h
      (HVal.ref r.2.1, r.2.1 + 1, (r.2.1, Cell.mapC r.1) :: r.2.2)

/-- Copy each element of a list default into the heap. -/
def allocList : ValueList → Nat → Heap → List HVal × Nat × Heap
  | ValueList.nil, c, h => ([], c, h)
  | ValueList.cons v t, c, h =>
      let r := allocVal v c h
      let r2 := allocList t r.2.1 r.2.2
      (r.1 :: r2.1, r2.2.1, r2.2.2)

/-- Copy each attribute of an instance dictionary into the heap. -/
def allocObj : Obj → Nat → Heap → List (String × HVal) × Nat × Heap
  | Obj.nil, c, h => ([], c, h)
  | Obj.cons k v t, c, h =>
      let r := allocVal v c h
      let r2 := allocObj t r.2.1 r.2.2
      ((k, r.1) :: r2.1, r2.2.1, r2.2.2)

/-- Copy each entry of a `Map` into the heap. -/
def allocEntries : EntryList → Nat → Heap → List (Int × HVal) × Nat × Heap
  | EntryList.nil, c, h => ([], c, h)
  | EntryList.cons k v t, c, h =>
      let r := allocVal v c h
      let r2 := allocEntries t r.2.1 r.2.2
      ((k, r.1) :: r2.1, r2.2.1, r2.2.2)

end

/-- Modelled from the spec: instantiating a container with no arguments
allocates a fresh root cell for the instance and fresh cells for every
mutable default it owns.  Returns the root address, the next free address
and the extended heap. -/
def allocContainer (fs : ContainerDecl) (c : Nat) (h : Heap) :
    Nat × Nat × Heap :=
  let r := allocObj (instantiate fs) c h
  (r.2.1, r.2.1 + 1, (r.2.1, Cell.objC r.1) :: r.2.2)

/-- The first of two consecutively constructed fresh instances of a container
class, created in an arbitrary prior world (heap `h0` with next free address
`c0`): its root address, the next free address and the heap after it. -/
def firstFresh (d : ContainerDecl) (c0 : Nat) (h0 : Heap) : Nat × Nat × Heap :=
  allocContainer d c0 h0

/-- The second of the two consecutively constructed fresh instances of the
same container class. -/
def secondFresh (d : ContainerDecl) (c0 : Nat) (h0 : Heap) :
    Nat × Nat × Heap :=
  allocContainer d (firstFresh d c0 h0).2.1 (firstFresh d c0 h0).2.2

/-- Rebind attribute `k` in an instance dictionary (heap-level `setattr`). -/
def setHF : List (String × HVal) → String → HVal → List (String × HVal)
  | [], k, v => [(k, v)]
  | (k', v') :: t, k, v =>
      if k' = k then (k, v) :: t else (k', v') :: setHF t k v

/-- Mutate field `f` of the container instance stored at address `a`. -/
def hSetField : Heap → Nat → String → HVal → Heap
  | [], _, _, _ => []
  | (a', c) :: t, a, f, v =>
      if a' = a then
        (a', (match c with
              | Cell.objC fs => Cell.objC (setHF fs f v)
              | c' => c')) :: t
      else (a', c) :: hSetField t a f v

/-- Append an element to the Python list stored at address `a`
(`list.append`, mutating the list in place). -/
def hListAppend : Heap → Nat → HVal → Heap
  | [], _, _ => []
  | (a', c) :: t, a, v =>
      if a' = a then
        (a', (match c with
              | Cell.listC vs => Cell.listC (vs ++ [v])
              | c' => c')) :: t
      else (a', c) :: hListAppend t a v

/-- Mutating one address leaves every other address unchanged. -/
theorem hGet_hSetField_ne : (h : Heap) → (a b : Nat) → (f : String) →
    (v : HVal) → a ≠ b → hGet (hSetField h a f v) b = hGet h b
  | [], a, b, f, v, hne => rfl
  | (a', c) :: t, a, b, f, v, hne => by
      by_cases ha : a' = a
      · subst ha
        simp only [hSetField, if_pos rfl, hGet, if_neg hne]
      · simp only [hSetField, if_neg ha, hGet]
        by_cases hb : a' = b
        · simp [hb]
        · simp only [if_neg hb]
          exact hGet_hSetField_ne t a b f v hne

/-- Appending to the list at one address leaves every other address
unchanged. -/
theorem hGet_hListAppend_ne : (h : Heap) → (a b : Nat) → (v : HVal) →
    a ≠ b → hGet (hListAppend h a v) b = hGet h b
  | [], a, b, v, hne => rfl
  | (a', c) :: t, a, b, v, hne => by
      by_cases ha : a' = a
      · subst ha
        simp only [hListAppend, if_pos rfl, hGet, if_neg hne]
      · simp only [hListAppend, if_neg ha, hGet]
        by_cases hb : a' = b
        · simp [hb]
        · simp only [if_neg hb]
          exact hGet_hListAppend_ne t a b v hne

/-- A heap whose addresses lie below `c` also lies below any `c' ≥ c`. -/
theorem heapBelow_mono : (h : Heap) → (c c' : Nat) → heapBelow h c = true →
    c ≤ c' → heapBelow h c' = true
  | [], _, _, _, _ => rfl
  | (a, cell) :: t, c, c', hb, hcc => by
      simp only [heapBelow, List.all_cons, Bool.and_eq_true,
        decide_eq_true_eq] at hb ⊢
      exact ⟨lt_of_lt_of_le hb.1 hcc,
        heapBelow_mono t c c' (by simpa [heapBelow] using hb.2) hcc⟩

/-- Addresses at or above the next free address are unallocated. -/
theorem hGet_none_of_below : (h : Heap) → (c b : Nat) →
    heapBelow h c = true → c ≤ b → hGet h b = Option.none
  | [], _, _, _, _ => rfl
  | (a, cell) :: t, c, b, hb, hcb => by
      simp only [heapBelow, List.all_cons, Bool.and_eq_true,
        decide_eq_true_eq] at hb
      have hne : a ≠ b := by omega
      simp only [hGet, if_neg hne]
      exact hGet_none_of_below t c b (by simpa [heapBelow] using hb.2) hcb

/-- Lookup in a concatenated heap: the left part shadows the right part. -/
theorem hGet_append : (l h : Heap) → (b : Nat) →
    hGet (l ++ h) b = (match hGet l b with
      | some cell => some cell
      | Option.none => hGet h b)
  | [], h, b => by simp [hGet]
  | (a, cell) :: t, h, b => by
      by_cases hab : a = b
      · simp [hGet, hab]
      · simp only [List.cons_append, hGet, if_neg hab]
        exact hGet_append t h b

mutual

/-- Allocation only moves the free-address counter forward and keeps every
allocated address below it. -/
theorem allocVal_growth : (v : Value) → (c : Nat) → (h : Heap) →
    heapBelow h c = true →
    c ≤ (allocVal v c h).2.1
    ∧ heapBelow (allocVal v c h).2.2 (allocVal v c h).2.1 = true
  | Value.int n, c, h, hb => by
      simp only [allocVal]
      exact ⟨le_refl c, hb⟩
  | Value.str s, c, h, hb => by
      simp only [allocVal]
      exact ⟨le_refl c, hb⟩
  | Value.none, c, h, hb => by
      simp only [allocVal]
      exact ⟨le_refl c, hb⟩
  | Value.quant m u, c, h, hb => by
      simp only [allocVal]
      exact ⟨le_refl c, hb⟩
  | Value.extInst cls, c, h, hb => by
      simp only [allocVal]
      refine ⟨Nat.le_succ c, ?_⟩
      simp only [heapBelow, List.all_cons, Bool.and_eq_true, decide_eq_true_eq]
      exact ⟨Nat.lt_succ_self c,
        by simpa [heapBelow] using heapBelow_mono h c (c + 1) hb (Nat.le_succ c)⟩
  | Value.list vs, c, h, hb => by
      obtain ⟨h1, h2⟩ := allocList_growth vs c h hb
      simp only [allocVal]
      refine ⟨le_trans h1 (Nat.le_succ _), ?_⟩
      simp only [heapBelow, List.all_cons, Bool.and_eq_true, decide_eq_true_eq]
      exact ⟨Nat.lt_succ_self _,
        by simpa [heapBelow] using heapBelow_mono _ _ _ h2 (Nat.le_succ _)⟩
  | Value.inst fs, c, h, hb => by
      obtain ⟨h1, h2⟩ := allocObj_growth fs c h hb
      simp only [allocVal]
      refine ⟨le_trans h1 (Nat.le_succ _), ?_⟩
      simp only [heapBelow, List.all_cons, Bool.and_eq_true, decide_eq_true_eq]
      exact ⟨Nat.lt_succ_self _,
        by simpa [heapBelow] using heapBelow_mono _ _ _ h2 (Nat.le_succ _)⟩
  | Value.map es, c, h, hb => by
      obtain ⟨h1, h2⟩ := allocEntries_growth es c h hb
      simp only [allocVal]
      refine ⟨le_trans h1 (Nat.le_succ _), ?_⟩
      simp only [heapBelow, List.all_cons, Bool.and_eq_true, decide_eq_true_eq]
      exact ⟨Nat.lt_succ_self _,
        by simpa [heapBelow] using heapBelow_mono _ _ _ h2 (Nat.le_succ _)⟩

theorem allocList_growth : (vs : ValueList) → (c : Nat) → (h : Heap) →
    heapBelow h c = true →
    c ≤ (allocList vs c h).2.1
    ∧ heapBelow (allocList vs c h).2.2 (allocList vs c h).2.1 = true
  | ValueList.nil, c, h, hb => by
      simp only [allocList]
      exact ⟨le_refl c, hb⟩
  | ValueList.cons v t, c, h, hb => by
      obtain ⟨h1, h2⟩ := allocVal_growth v c h hb
      obtain ⟨h3, h4⟩ := allocList_growth t (allocVal v c h).2.1 (allocVal v c h).2.2 h2
      simp only [allocList]
      exact ⟨le_trans h1 h3, h4⟩

theorem allocObj_growth : (fs : Obj) → (c : Nat) → (h : Heap) →
    heapBelow h c = true →
    c ≤ (allocObj fs c h).2.1
    ∧ heapBelow (allocObj fs c h).2.2 (allocObj fs c h).2.1 = true
  | Obj.nil, c, h, hb => by
      simp only [allocObj]
      exact ⟨le_refl c, hb⟩
  | Obj.cons k v t, c, h, hb => by
      obtain ⟨h1, h2⟩ := allocVal_growth v c h hb
      obtain ⟨h3, h4⟩ := allocObj_growth t (allocVal v c h).2.1 (allocVal v c h).2.2 h2
      simp only [allocObj]
      exact ⟨le_trans h1 h3, h4⟩

theorem allocEntries_growth : (es : EntryList) → (c : Nat) → (h : Heap) →
    heapBelow h c = true →
    c ≤ (allocEntries es c h).2.1
    ∧ heapBelow (allocEntries es c h).2.2 (allocEntries es c h).2.1 = true
  | EntryList.nil, c, h, hb => by
      simp only [allocEntries]
      exact ⟨le_refl c, hb⟩
  | EntryList.cons k v t, c, h, hb => by
      obtain ⟨h1, h2⟩ := allocVal_growth v c h hb
      obtain ⟨h3, h4⟩ := allocEntries_growth t (allocVal v c h).2.1 (allocVal v c h).2.2 h2
      simp only [allocEntries]
      exact ⟨le_trans h1 h3, h4⟩

end

mutual

/-- Allocation is independent of the pre-existing heap: the produced inline
value and counter do not depend on it, and the new cells are laid on top of
it. -/
theorem allocVal_append : (v : Value) → (c : Nat) → (h : Heap) →
    (allocVal v c h).1 = (allocVal v c []).1
    ∧ (allocVal v c h).2.1 = (allocVal v c []).2.1
    ∧ (allocVal v c h).2.2 = (allocVal v c []).2.2 ++ h
  | Value.int n, c, h => by simp [allocVal]
  | Value.str s, c, h => by simp [allocVal]
  | Value.none, c, h => by simp [allocVal]
  | Value.quant m u, c, h => by simp [allocVal]
  | Value.extInst cls, c, h => by simp [allocVal]
  | Value.list vs, c, h => by
      obtain ⟨h1, h2, h3⟩ := allocList_append vs c h
      simp only [allocVal]
      exact ⟨by rw [h2], by rw [h2], by rw [h1, h2, h3, List.cons_append]⟩
  | Value.inst fs, c, h => by
      obtain ⟨h1, h2, h3⟩ := allocObj_append fs c h
      simp only [allocVal]
      exact ⟨by rw [h2], by rw [h2], by rw [h1, h2, h3, List.cons_append]⟩
  | Value.map es, c, h => by
      obtain ⟨h1, h2, h3⟩ := allocEntries_append es c h
      simp only [allocVal]
      exact ⟨by rw [h2], by rw [h2], by rw [h1, h2, h3, List.cons_append]⟩

theorem allocList_append : (vs : ValueList) → (c : Nat) → (h : Heap) →
    (allocList vs c h).1 = (allocList vs c []).1
    ∧ (allocList vs c h).2.1 = (allocList vs c []).2.1
    ∧ (allocList vs c h).2.2 = (allocList vs c []).2.2 ++ h
  | ValueList.nil, c, h => by simp [allocList]
  | ValueList.cons v t, c, h => by
      obtain ⟨v1, v2, v3⟩ := allocVal_append v c h
      obtain ⟨t1, t2, t3⟩ := allocList_append t (allocVal v c h).2.1 (allocVal v c h).2.2
      obtain ⟨s1, s2, s3⟩ := allocList_append t (allocVal v c []).2.1 (allocVal v c []).2.2
      simp only [allocList]
      refine ⟨?_, ?_, ?_⟩
      · rw [t1, v2, v1, ← s1]
      · rw [t2, v2, ← s2]
      · rw [t3, v2, v3, s3, List.append_assoc]

theorem allocObj_append : (fs : Obj) → (c : Nat) → (h : Heap) →
    (allocObj fs c h).1 = (allocObj fs c []).1
    ∧ (allocObj fs c h).2.1 = (allocObj fs c []).2.1
    ∧ (allocObj fs c h).2.2 = (allocObj fs c []).2.2 ++ h
  | Obj.nil, c, h => by simp [allocObj]
  | Obj.cons k v t, c, h => by
      obtain ⟨v1, v2, v3⟩ := allocVal_append v c h
      obtain ⟨t1, t2, t3⟩ := allocObj_append t (allocVal v c h).2.1 (allocVal v c h).2.2
      obtain ⟨s1, s2, s3⟩ := allocObj_append t (allocVal v c []).2.1 (allocVal v c []).2.2
      simp only [allocObj]
      refine ⟨?_, ?_, ?_⟩
      · rw [t1, v2, v1, ← s1]
      · rw [t2, v2, ← s2]
      · rw [t3, v2, v3, s3, List.append_assoc]

theorem allocEntries_append : (es : EntryList) → (c : Nat) → (h : Heap) →
    (allocEntries es c h).1 = (allocEntries es c []).1
    ∧ (allocEntries es c h).2.1 = (allocEntries es c []).2.1
    ∧ (allocEntries es c h).2.2 = (allocEntries es c []).2.2 ++ h
  | EntryList.nil, c, h => by simp [allocEntries]
  | EntryList.cons k v t, c, h => by
      obtain ⟨v1, v2, v3⟩ := allocVal_append v c h
      obtain ⟨t1, t2, t3⟩ := allocEntries_append t (allocVal v c h).2.1 (allocVal v c h).2.2
      obtain ⟨s1, s2, s3⟩ := allocEntries_append t (allocVal v c []).2.1 (allocVal v c []).2.2
      simp only [allocEntries]
      refine ⟨?_, ?_, ?_⟩
      · rw [t1, v2, v1, ← s1]
      · rw [t2, v2, ← s2]
      · rw [t3, v2, v3, s3, List.append_assoc]

end

/-- Instantiating a container in a well-formed world: the root lies at or
above the starting counter and below the new counter, and the whole heap
stays below the new counter. -/
theorem allocContainer_growth (d : ContainerDecl) (c : Nat) (h : Heap)
    (hb : heapBelow h c = true) :
    c ≤ (allocContainer d c h).1
    ∧ (allocContainer d c h).1 < (allocContainer d c h).2.1
    ∧ heapBelow (allocContainer d c h).2.2 (allocContainer d c h).2.1 = true := by
  obtain ⟨h1, h2⟩ := allocObj_growth (instantiate d) c h hb
  simp only [allocContainer]
  refine ⟨h1, Nat.lt_succ_self _, ?_⟩
  simp only [heapBelow, List.all_cons, Bool.and_eq_true, decide_eq_true_eq]
  exact ⟨Nat.lt_succ_self _,
    by simpa [heapBelow] using heapBelow_mono _ _ _ h2 (Nat.le_succ _)⟩

/-- Instantiating a container is independent of the pre-existing heap: same
root, same counter, and the instance's new cells laid on top. -/
theorem allocContainer_append (d : ContainerDecl) (c : Nat) (h : Heap) :
    (allocContainer d c h).1 = (allocContainer d c []).1
    ∧ (allocContainer d c h).2.1 = (allocContainer d c []).2.1
    ∧ (allocContainer d c h).2.2 = (allocContainer d c []).2.2 ++ h := by
  obtain ⟨h1, h2, h3⟩ := allocObj_append (instantiate d) c h
  simp only [allocContainer]
  exact ⟨by rw [h2], by rw [h2], by rw [h1, h2, h3, List.cons_append]⟩

/-! ## The spec's sentinel classification of defaults -/

/-- The four sentinel shapes the spec's sentence names (this definition
follows the spec's words, to be compared with the declared defaults): the
integer `-1`, an empty sequence, a textual placeholder, or not-a-number
carrying a unit. -/
def specSentinel : Value → Bool
  | Value.int n => n == -1
  | Value.list vs => vs == ValueList.nil
  | Value.str _ => true
  | Value.quant m _ => m == FloatLit.nan
  | _ => false

/-- The amended sentinel classification, as the declared defaults force it:
besides the spec's four shapes it admits the integer `0` (the firmware
version defaults), `None`, a freshly-defaulted sub-record of a container
class declared in the module, a fresh instance of an external framework
container, and the empty `Map`. -/
def amendedSentinel : Value → Bool
  | Value.int n => n == -1 || n == 0
  | Value.list vs => vs == ValueList.nil
  | Value.str _ => true
  | Value.quant m _ => m == FloatLit.nan
  | Value.none => true
  | Value.inst fs => containerDefs.any fun p => instantiate p.2 == fs
  | Value.extInst _ => true
  | Value.map es => es == EntryList.nil

/-- The eight angle-valued fields of `LSTDriveContainer`. -/
def angleFieldNames : List String :=
  ["azimuth_avg", "azimuth_min", "azimuth_max", "azimuth_rmse",
   "altitude_avg", "altitude_min", "altitude_max", "altitude_rmse"]

/-! ## The claims -/

/-- Claim C1: for every container class declared in the module, instantiating
it with no arguments yields exactly the declared default value for every
field; in particular a fresh `LSTServiceContainer` has `telescope_id = -1`
and `pixel_ids = []`. -/
theorem instantiate_yields_declared_defaults :
    (∀ p ∈ containerDefs, ∀ fd ∈ p.2,
      getF (instantiate p.2) fd.name = some fd.default)
    ∧ getF (instantiate LSTServiceContainer) "telescope_id"
        = some (Value.int (-1))
    ∧ getF (instantiate LSTServiceContainer) "pixel_ids"
        = some (Value.list ValueList.nil) := by
  refine ⟨by decide, by decide, by decide⟩

/-- Claim C2, counterexample: the claim that every default is one of the four
sentinels (-1, empty sequence, textual placeholder, not-a-number with unit)
fails on concrete fields of `LSTServiceContainer`: `cs_serial` defaults to
`None` and `idaq_version` defaults to the integer `0`, neither of which is
one of the four shapes. -/
theorem default_sentinel_counterexample :
    getDecl LSTServiceContainer "cs_serial"
      = some (fld "cs_serial" Value.none "serial number of the camera server")
    ∧ specSentinel Value.none = false
    ∧ getDecl LSTServiceContainer "idaq_version"
      = some (fld "idaq_version" (Value.int 0) "idaq version")
    ∧ specSentinel (Value.int 0) = false := by
  refine ⟨by decide, by decide, by decide, by decide⟩

/-- Claim C2, amended: every field of every container declared in the module
defaults to one of: -1, 0, `None`, an empty sequence, a textual placeholder,
not-a-number carrying a unit, a freshly-defaulted sub-record of a declared
container class, a fresh instance of an external framework container, or an
empty map. -/
theorem defaults_are_sentinels_amended :
    ∀ p ∈ containerDefs, ∀ fd ∈ p.2, amendedSentinel fd.default = true := by
  decide

theorem defaults_are_sentinels_amended_witness :
    amendedSentinel (fld "telescope_id" (Value.int (-1)) "telescope id").default
      = true :=
  defaults_are_sentinels_amended ("LSTServiceContainer", LSTServiceContainer)
    (by decide) (fld "telescope_id" (Value.int (-1)) "telescope id") (by decide)

/-- Claim C3: for every integer key `k`, looking up `k` in a fresh
`LSTContainer`'s `tel` mapping returns a freshly-defaulted
`LSTCameraContainer` and never raises (the lookup is a total function whose
missing-key branch produces the fresh instance), and that fresh
`LSTCameraContainer` has every field at its declared default. -/
theorem telGet_fresh_returns_default_camera :
    (∀ k : Int, telGet (instantiate LSTContainer) k
      = some (Value.inst (instantiate LSTCameraContainer)))
    ∧ ∀ fd ∈ LSTCameraContainer,
        getF (instantiate LSTCameraContainer) fd.name = some fd.default := by
  refine ⟨fun k => rfl, by decide⟩

/-- Claim C4: for every container class declared in the module, every field
of that class and every value `v`, constructing the container, assigning `v`
to the field and reading the field back returns exactly `v`, with no
transformation applied. -/
theorem set_then_get_roundtrip :
    ∀ p ∈ containerDefs, ∀ fd ∈ p.2, ∀ v : Value,
      getF (setF (instantiate p.2) fd.name v) fd.name = some v := by
  intro p _ fd _ v
  exact getF_setF (instantiate p.2) fd.name v

theorem set_then_get_roundtrip_witness :
    getF (setF (instantiate LSTServiceContainer) "telescope_id"
      (Value.int 42)) "telescope_id" = some (Value.int 42) :=
  set_then_get_roundtrip ("LSTServiceContainer", LSTServiceContainer)
    (by decide) (fld "telescope_id" (Value.int (-1)) "telescope id")
    (by decide) (Value.int 42)

/-- Claim C5: in a fresh `LSTDriveContainer`, each of the eight angle fields
defaults to not-a-number expressed in the radian unit, and each of these
fields is declared with an angular unit. -/
theorem drive_angle_defaults_nan_rad :
    ∀ n ∈ angleFieldNames,
      getF (instantiate LSTDriveContainer) n
        = some (Value.quant FloatLit.nan PhysUnit.rad)
      ∧ (getDecl LSTDriveContainer n).map FieldDecl.unit
        = some (some PhysUnit.rad) := by
  decide

theorem drive_angle_defaults_nan_rad_witness :
    getF (instantiate LSTDriveContainer) "azimuth_avg"
      = some (Value.quant FloatLit.nan PhysUnit.rad)
    ∧ (getDecl LSTDriveContainer "azimuth_avg").map FieldDecl.unit
      = some (some PhysUnit.rad) :=
  drive_angle_defaults_nan_rad "azimuth_avg" (by decide)

/-- Claim C6: a fresh `LSTCameraContainer` holds exactly one
`LSTEventContainer` (`evt`), one `LSTServiceContainer` (`svc`) and one
`LSTMonitoringContainer` (`mon`), and a fresh `LSTMonitoringContainer` holds
exactly one `LSTDriveContainer` (`drive`); each nested sub-record is itself a
freshly-defaulted instance of its class. -/
theorem camera_and_monitoring_nesting :
    instantiate LSTCameraContainer
      = Obj.cons "evt" (Value.inst (instantiate LSTEventContainer))
          (Obj.cons "svc" (Value.inst (instantiate LSTServiceContainer))
            (Obj.cons "mon" (Value.inst (instantiate LSTMonitoringContainer))
              Obj.nil))
    ∧ instantiate LSTMonitoringContainer
      = Obj.cons "drive" (Value.inst (instantiate LSTDriveContainer))
          Obj.nil := by
  refine ⟨rfl, rfl⟩

/-- Claim C7, counterexample: the tels_with_data / tel correspondence is not
maintained over every reachable `LSTContainer` state: assigning
`tels_with_data = [1]` to a fresh instance (one reachable step) lists
telescope id 1 without a corresponding inserted entry in the `tel`
mapping. -/
theorem tels_with_data_invariant_counterexample :
    Reachable (setF (instantiate LSTContainer) "tels_with_data"
      (Value.list (ValueList.cons (Value.int 1) ValueList.nil)))
    ∧ telInv (setF (instantiate LSTContainer) "tels_with_data"
      (Value.list (ValueList.cons (Value.int 1) ValueList.nil))) = false := by
  refine ⟨Relation.ReflTransGen.single (LSTStep.assign _ _ _), by decide⟩

/-- Claim C7, amended: the correspondence between `tels_with_data` and the
`tel` mapping is not mechanically enforced over arbitrary field assignments
(maintaining it is an external collaborator's responsibility); it does hold
for a fresh `LSTContainer`, and insertions into the `tel` mapping preserve
it. -/
theorem tels_with_data_invariant_amended :
    telInv (instantiate LSTContainer) = true
    ∧ ∀ (s : Obj) (k : Int) (v : Value),
        telInv s = true → telInv (telInsert s k v) = true := by
  exact ⟨by decide, fun s k v h => telInv_telInsert s k v h⟩

/-- Claim C9: a freshly constructed `LSTContainer` trivially satisfies the
correspondence invariant: its `tels_with_data` list is empty, its `tel`
mapping has no inserted entries, and the invariant holds. -/
theorem fresh_lst_container_invariant :
    telsListed (instantiate LSTContainer) = ValueList.nil
    ∧ telEntries (instantiate LSTContainer) = EntryList.nil
    ∧ telInv (instantiate LSTContainer) = true := by
  refine ⟨by decide, by decide, by decide⟩

/-- Claim C10: in a fresh `LSTServiceContainer` the firmware version fields
`idaq_version` and `cdhs_version` default to the integer `0` (not `-1`, not
`None`), and assigning a genuinely populated version equal to `0` produces an
instance identical to the fresh one, so the default is indistinguishable from
a populated `0`. -/
theorem version_fields_default_zero :
    getF (instantiate LSTServiceContainer) "idaq_version" = some (Value.int 0)
    ∧ getF (instantiate LSTServiceContainer) "cdhs_version" = some (Value.int 0)
    ∧ setF (instantiate LSTServiceContainer) "idaq_version" (Value.int 0)
        = instantiate LSTServiceContainer
    ∧ setF (instantiate LSTServiceContainer) "cdhs_version" (Value.int 0)
        = instantiate LSTServiceContainer
    ∧ Value.int 0 ≠ Value.int (-1)
    ∧ Value.int 0 ≠ Value.none := by
  refine ⟨by decide, by decide, by decide, by decide, by decide, by decide⟩

/-- Claim C8: ownership is tree-shaped with no sharing, for every container
class declared in the module and every pair of freshly constructed instances.
In any well-formed world (`heapBelow h0 c0`), allocate two fresh instances of
the class in sequence.  Every cell that existed when the second instance was
created — every cell of the first instance included — lies at an address `a`
below the first allocation's final counter, while the second instance's root
and every cell it owns lie at or above it.  Mutating any such address `a`
(rebinding a field, e.g. of the drive sub-record, or appending to a list,
e.g. `pixel_ids`) leaves every address `b` of the second instance unchanged,
and symmetrically mutating any `b` leaves every `a` unchanged; moreover every
address `b` of the second instance holds exactly what a standalone fresh
default allocation at the same counter produces, so the untouched instance
stays at its declared defaults. -/
theorem no_sharing_between_fresh_instances :
    ∀ p ∈ containerDefs, ∀ (c0 : Nat) (h0 : Heap) (a b : Nat) (f : String)
      (v w : HVal),
      heapBelow h0 c0 = true →
      a < (firstFresh p.2 c0 h0).2.1 →
      (firstFresh p.2 c0 h0).2.1 ≤ b →
      heapBelow (firstFresh p.2 c0 h0).2.2 (firstFresh p.2 c0 h0).2.1 = true
      ∧ c0 ≤ (firstFresh p.2 c0 h0).1
      ∧ (firstFresh p.2 c0 h0).1 < (firstFresh p.2 c0 h0).2.1
      ∧ (firstFresh p.2 c0 h0).2.1 ≤ (secondFresh p.2 c0 h0).1
      ∧ (secondFresh p.2 c0 h0).1 < (secondFresh p.2 c0 h0).2.1
      ∧ heapBelow (secondFresh p.2 c0 h0).2.2 (secondFresh p.2 c0 h0).2.1
          = true
      ∧ hGet (hSetField (secondFresh p.2 c0 h0).2.2 a f v) b
          = hGet (secondFresh p.2 c0 h0).2.2 b
      ∧ hGet (hListAppend (secondFresh p.2 c0 h0).2.2 a w) b
          = hGet (secondFresh p.2 c0 h0).2.2 b
      ∧ hGet (hSetField (secondFresh p.2 c0 h0).2.2 b f v) a
          = hGet (secondFresh p.2 c0 h0).2.2 a
      ∧ hGet (hListAppend (secondFresh p.2 c0 h0).2.2 b w) a
          = hGet (secondFresh p.2 c0 h0).2.2 a
      ∧ hGet (secondFresh p.2 c0 h0).2.2 b
          = hGet (allocContainer p.2 (firstFresh p.2 c0 h0).2.1 []).2.2 b := by
  intro p hp c0 h0 a b f v w hb ha hble
  simp only [firstFresh, secondFresh] at ha hble ⊢
  have hne : a ≠ b := by omega
  have hne' : b ≠ a := by omega
  obtain ⟨g1, g2, g3⟩ := allocContainer_growth p.2 c0 h0 hb
  obtain ⟨G1, G2, G3⟩ := allocContainer_growth p.2
    (allocContainer p.2 c0 h0).2.1 (allocContainer p.2 c0 h0).2.2 g3
  obtain ⟨A1, A2, A3⟩ := allocContainer_append p.2
    (allocContainer p.2 c0 h0).2.1 (allocContainer p.2 c0 h0).2.2
  refine ⟨g3, g1, g2, G1, G2, G3,
    hGet_hSetField_ne _ a b f v hne,
    hGet_hListAppend_ne _ a b w hne,
    hGet_hSetField_ne _ b a f v hne',
    hGet_hListAppend_ne _ b a w hne',
    ?_⟩
  rw [A3, hGet_append,
    hGet_none_of_below (allocContainer p.2 c0 h0).2.2
      (allocContainer p.2 c0 h0).2.1 b g3 hble]
  cases hGet (allocContainer p.2 (allocContainer p.2 c0 h0).2.1 []).2.2 b
  · rfl
  · rfl

theorem no_sharing_between_fresh_instances_witness :
    heapBelow (firstFresh LSTMonitoringContainer 0 []).2.2
        (firstFresh LSTMonitoringContainer 0 []).2.1 = true
    ∧ 0 ≤ (firstFresh LSTMonitoringContainer 0 []).1
    ∧ (firstFresh LSTMonitoringContainer 0 []).1
        < (firstFresh LSTMonitoringContainer 0 []).2.1
    ∧ (firstFresh LSTMonitoringContainer 0 []).2.1
        ≤ (secondFresh LSTMonitoringContainer 0 []).1
    ∧ (secondFresh LSTMonitoringContainer 0 []).1
        < (secondFresh LSTMonitoringContainer 0 []).2.1
    ∧ heapBelow (secondFresh LSTMonitoringContainer 0 []).2.2
        (secondFresh LSTMonitoringContainer 0 []).2.1 = true
    ∧ hGet (hSetField (secondFresh LSTMonitoringContainer 0 []).2.2 0
          "azimuth_avg" (HVal.int 7)) 3
        = hGet (secondFresh LSTMonitoringContainer 0 []).2.2 3
    ∧ hGet (hListAppend (secondFresh LSTMonitoringContainer 0 []).2.2 0
          (HVal.int 5)) 3
        = hGet (secondFresh LSTMonitoringContainer 0 []).2.2 3
    ∧ hGet (hSetField (secondFresh LSTMonitoringContainer 0 []).2.2 3
          "azimuth_avg" (HVal.int 7)) 0
        = hGet (secondFresh LSTMonitoringContainer 0 []).2.2 0
    ∧ hGet (hListAppend (secondFresh LSTMonitoringContainer 0 []).2.2 3
          (HVal.int 5)) 0
        = hGet (secondFresh LSTMonitoringContainer 0 []).2.2 0
    ∧ hGet (secondFresh LSTMonitoringContainer 0 []).2.2 3
        = hGet (allocContainer LSTMonitoringContainer
            (firstFresh LSTMonitoringContainer 0 []).2.1 []).2.2 3 :=
  no_sharing_between_fresh_instances
    ("LSTMonitoringContainer", LSTMonitoringContainer) (by decide)
    0 [] 0 3 "azimuth_avg" (HVal.int 7) (HVal.int 5)
    (by decide) (by decide) (by decide)

end LSTContainers
